import Mathlib

/-!
# influxdb-ha: token storage and aggregate merge

A shallow embedding of `cluster/token_storage.go` (the etcd-backed token
storage: `Assign`, `Get`, `Reserve`, `Release`) over an in-memory model of the
etcd v2 keys API, and of the merge tree exercised by
`service/coordinator_test.go`.
-/

set_option autoImplicit false

namespace InfluxHA

/-! ## Go library functions used by the source -/

/-- Decimal digits of a natural number, most significant first. -/
def natDigits (n : Nat) : List Char :=
  Nat.toDigits 10 n

/-- Go `strconv.Itoa`: the decimal text of an integer, with a leading `-` for
negative values. A Go `int` has 64 bits; the text is given for every
integer. -/
def Itoa (i : Int) : String :=
  match i with
  | Int.ofNat n => String.mk (natDigits n)
  | Int.negSucc n => String.mk ('-' :: natDigits (n + 1))

/-- Value of one decimal digit character, when it is one. -/
def digitVal (c : Char) : Option Nat :=
  if '0' ≤ c ∧ c ≤ '9' then some (c.toNat - '0'.toNat) else none

/-- Reads a run of decimal digits, left to right, from an accumulator. -/
def parseDigits : Nat → List Char → Option Nat
  | acc, [] => some acc
  | acc, c :: cs =>
    match digitVal c with
    | some d => parseDigits (acc * 10 + d) cs
    | none => none

/-- Go `strconv.Atoi` for a 64-bit `int`: an optional sign followed by at
least one decimal digit, inside the range of `int`; `none` is the error
result. -/
def Atoi (s : String) : Option Int :=
  match s.data with
  | [] => none
  | '-' :: ds =>
    if ds = [] then none
    else match parseDigits 0 ds with
      | some n => if n ≤ 2 ^ 63 then some (-(n : Int)) else none
      | none => none
  | '+' :: ds =>
    if ds = [] then none
    else match parseDigits 0 ds with
      | some n => if n < 2 ^ 63 then some (n : Int) else none
      | none => none
  | ds =>
    match parseDigits 0 ds with
    | some n => if n < 2 ^ 63 then some (n : Int) else none
    | none => none

/-- Splits a character list at every occurrence of the separator; the first
argument is the segment being read, reversed. -/
def splitAux (sep : Char) : List Char → List Char → List String
  | cur, [] => [String.mk cur.reverse]
  | cur, c :: cs =>
    if c = sep then String.mk cur.reverse :: splitAux sep [] cs
    else splitAux sep (c :: cur) cs

/-- Go `strings.Split(s, sep)` for a one-character separator. -/
def Split (s : String) (sep : Char) : List String :=
  splitAux sep [] s.data

/-- Go `time.Minute`, a `time.Duration` in nanoseconds. -/
def Minute : Nat := 60 * 1000000000

/-! ## The etcd v2 keys API (`client.KeysAPI`), modelled in memory -/

/-- Go `client.ErrorCodeKeyNotFound`. -/
def ErrorCodeKeyNotFound : Nat := 100

/-- Go `client.ErrorCodeNotFile`. -/
def ErrorCodeNotFile : Nat := 102

/-- Go `client.ErrorCodeNotDir`. -/
def ErrorCodeNotDir : Nat := 104

/-- A Go `error` as the source distinguishes them: a `client.Error` with its
code, or an error of any other type (cluster unavailable, context deadline). -/
inductive Error where
  | clientError (Code : Nat) (Message : String)
  | other (text : String)
  deriving DecidableEq, Repr

/-- Go `client.SetOptions`, reduced to the field the source sets. A zero `TTL`
asks for no expiry. -/
structure SetOptions where
  TTL : Nat
  deriving DecidableEq, Repr

/-- One key of the store: a file with a value, or a directory. `ttl` is the
time to live the writer asked for, in nanoseconds, zero when it asked for
none. -/
structure Entry where
  path : List String
  dir : Bool
  value : String
  ttl : Nat
  deriving DecidableEq, Repr

/-- State of the key/value store: its keys, the first entry of a path being
the live one. In a store that etcd can reach every entry has directories
above it; the operations below are defined on every list. -/
abbrev Store := List Entry

/-- A child node of a listed directory: a `client.Node` whose own children were
not asked for. -/
structure NodeInfo where
  Key : String
  Dir : Bool
  Value : String
  TTL : Nat
  deriving DecidableEq, Repr

/-- Go `client.Node`: a key with its value and, for a directory that was
listed, its direct children. -/
structure Node where
  Key : String
  Dir : Bool
  Value : String
  TTL : Nat
  Nodes : List NodeInfo
  deriving DecidableEq, Repr

/-- Go `client.Response`. -/
structure Response where
  Action : String
  Node : Node
  deriving DecidableEq, Repr

/-- The store addresses a key by its non-empty path segments. -/
def keyPath (key : String) : List String :=
  (Split key '/').filter (fun seg => seg ≠ "")

/-- The key text of a path, as responses carry it: every segment after a
slash. -/
def pathKey (p : List String) : String :=
  p.foldl (fun acc seg => acc ++ "/" ++ seg) ""

/-- The live entry of a path. -/
def lookup (s : Store) (p : List String) : Option Entry :=
  s.find? (fun e => e.path = p)

/-- The direct children of a directory. -/
def children (s : Store) (p : List String) : List Entry :=
  s.filter (fun e => e.path ≠ [] ∧ e.path.dropLast = p)

/-- The non-empty proper prefixes of a path: the directories above a key. -/
def ancestors (p : List String) : List (List String) :=
  (List.range p.length).filterMap (fun i => if i = 0 then none else some (p.take i))

/-- Adds a directory entry for every listed path that has no entry yet. -/
def ensureDirs : Store → List (List String) → Store
  | s, [] => s
  | s, d :: ds =>
    match lookup s d with
    | some _ => ensureDirs s ds
    | none => ensureDirs (s ++ [{ path := d, dir := true, value := "", ttl := 0 }]) ds

/-- The response node of an entry. -/
def Entry.info (e : Entry) : NodeInfo :=
  { Key := pathKey e.path, Dir := e.dir, Value := e.value, TTL := e.ttl }

/-- The Go `error` value of an answer: nil (`none`) for a response. -/
def errOf {α : Type} : Except Error α → Option Error
  | .error e => some e
  | .ok _ => none

/-- Whether an error is the store's answer "key not found": a `client.Error`
whose code is `ErrorCodeKeyNotFound`. -/
def Error.isKeyNotFound : Error → Bool
  | .clientError Code _ => Code == ErrorCodeKeyNotFound
  | .other _ => false

/-- The answer of the store for a key it does not hold. -/
def keyNotFound : Error :=
  Error.clientError ErrorCodeKeyNotFound "Key not found"

/-- The answer of the store to a file request on a directory. -/
def notAFile : Error :=
  Error.clientError ErrorCodeNotFile "Not a file"

/-- The answer of the store to a request below a key that is a file. -/
def notADirectory : Error :=
  Error.clientError ErrorCodeNotDir "Not a directory"

/-- The walk of a read or a delete down the directories above a key, from the
root: the first one that is missing ends it with error code 100, the first
one that is a file ends it with error code 104. -/
def walk (s : Store) : List (List String) → Option Error
  | [] => none
  | d :: ds =>
    match lookup s d with
    | none => some keyNotFound
    | some e => if e.dir then walk s ds else some notADirectory

/-- Whether a file stands at one of the listed paths: the walk of a write,
which creates the directories that are missing, stops only there. -/
def fileAbove (s : Store) : List (List String) → Bool
  | [] => false
  | d :: ds =>
    match lookup s d with
    | none => fileAbove s ds
    | some e => if e.dir then fileAbove s ds else true

/-- Go `KeysAPI.Get(ctx, key, nil)`; the client returns a nil response exactly
when it returns an error. A fault is an answer the store or the transport
gives instead of serving the request. The store walks down the directories
above the key (error code 100 for a missing one, 104 for a file); a missing
key is answered with error code 100; a directory is answered with its direct
children. -/
def kapiGet (s : Store) (fault : Option Error) (key : String) : Except Error Response :=
  match fault with
  | some e => .error e
  | none =>
    match walk s (ancestors (keyPath key)) with
    | some err => .error err
    | none =>
      match lookup s (keyPath key) with
      | none => .error keyNotFound
      | some e =>
        .ok { Action := "get",
              Node := { Key := pathKey e.path, Dir := e.dir, Value := e.value, TTL := e.ttl,
                        Nodes := if e.dir then (children s e.path).map Entry.info else [] } }

/-- The store after a file is written at a path below which no file stands
(`kapiSet` has checked it): the entry of the path is replaced and the missing
directories above it are created. -/
def putFile (s : Store) (p : List String) (value : String) (ttl : Nat) : Store :=
  ensureDirs ({ path := p, dir := false, value := value, ttl := ttl } ::
    s.filter (fun x => x.path ≠ p)) (ancestors p)

/-- The time to live a write asks for: that of its options, none (zero) when
the options are nil. -/
def requestTTL : Option SetOptions → Nat
  | some o => o.TTL
  | none => 0

/-- Go `KeysAPI.Set(ctx, key, value, opts)`, with the store after the call.
A file standing above the key is answered with error code 104 and a key that
is a directory with error code 102, nothing being written; otherwise the
write replaces the entry of the key, records the time to live of the options
and creates the missing directories above it. -/
def kapiSet (s : Store) (fault : Option Error) (key value : String) (opts : Option SetOptions) :
    Except Error Response × Store :=
  match fault with
  | some e => (.error e, s)
  | none =>
    let p := keyPath key
    if fileAbove s (ancestors p) then (.error notADirectory, s)
    else
      let isDir := match lookup s p with
        | some e => e.dir
        | none => false
      if isDir then (.error notAFile, s)
      else
        (.ok { Action := "set",
               Node := { Key := pathKey p, Dir := false, Value := value, TTL := requestTTL opts,
                         Nodes := [] } },
         putFile s p value (requestTTL opts))

/-- Go `KeysAPI.Delete(ctx, key, nil)`, with the store after the call. The
store walks down the directories above the key as for a read; a missing key
is answered with error code 100, a directory with error code 102; a file is
removed. -/
def kapiDelete (s : Store) (fault : Option Error) (key : String) :
    Except Error Response × Store :=
  match fault with
  | some e => (.error e, s)
  | none =>
    let p := keyPath key
    match walk s (ancestors p) with
    | some err => (.error err, s)
    | none =>
      match lookup s p with
      | none => (.error keyNotFound, s)
      | some e =>
        if e.dir then (.error notAFile, s)
        else
          (.ok { Action := "delete",
                 Node := { Key := pathKey p, Dir := false, Value := "", TTL := 0, Nodes := [] } },
           s.filter (fun x => x.path ≠ p))

/-! ## `cluster/token_storage.go` -/

/-- Source constant `etcdStorageBaseDir`. -/
def etcdStorageBaseDir : String := "influxdbCluster"

/-- Source function `createEtcdTokenPath`. -/
def createEtcdTokenPath (token : Int) (path : String) : String :=
  etcdStorageBaseDir ++ "/" ++ path ++ "/" ++ Itoa token

/-- Source method `etcdTokenStorage.Assign`: the error it returns, and the
store after the call. -/
def Assign (s : Store) (setFault : Option Error) (token : Int) (node : String) :
    Option Error × Store :=
  let val := node
  let r := kapiSet s setFault (createEtcdTokenPath token "reservedTokens") val none
  (errOf r.1, r.2)

/-- A Go `map[int]string` as an association list, one pair per key. -/
abbrev TokenMap := List (Int × String)

/-- Go `m[k] = v`. -/
def TokenMap.set (m : TokenMap) (k : Int) (v : String) : TokenMap :=
  (k, v) :: m.filter (fun kv => kv.1 ≠ k)

/-- Go `m[k]`, with `none` for a missing key. -/
def TokenMap.get (m : TokenMap) (k : Int) : Option String :=
  (m.find? (fun kv => kv.1 = k)).map Prod.snd

/-- The loop of `Get` over `resp.Node.Nodes`. -/
def getLoop : TokenMap → List NodeInfo → TokenMap
  | tokenMap, [] => tokenMap
  | tokenMap, node :: rest =>
    let parts := Split node.Key '/'
    match Atoi (parts.getLastD "") with
    | some token => getLoop (tokenMap.set token node.Value) rest
    | none => getLoop tokenMap rest

/-- Source method `etcdTokenStorage.Get`; a nil map is `none`. -/
def Get (s : Store) (getFault : Option Error) : Option TokenMap × Option Error :=
  match kapiGet s getFault (etcdStorageBaseDir ++ "/tokens/") with
  | .error getErr => (none, some getErr)
  | .ok resp => (some (getLoop [] resp.Node.Nodes), none)

/-- Result of `Reserve`: the two values the method returns and the store
after the call. -/
structure ReserveResult where
  granted : Bool
  err : Option Error
  store : Store
  deriving DecidableEq, Repr

set_option linter.unusedVariables false in
/-- The writing tail of `Reserve`, lines 68 to 72 of the source: the options
are built with a time to live of one minute, and the write is sent with nil
options. -/
def reserveWrite (s : Store) (setFault : Option Error) (token : Int) (node : String) :
    ReserveResult :=
  let val := node
  let opts : SetOptions := { TTL := 0 }
  let opts : SetOptions := { opts with TTL := Minute }
  let r := kapiSet s setFault (createEtcdTokenPath token "reservedTokens") val none
  { granted := errOf r.1 == none, err := errOf r.1, store := r.2 }

/-- Source method `etcdTokenStorage.Reserve`. A read that ends in an error
leaves `resp` nil, so after a key-not-found error the test of `resp` is passed
over and the method goes on to the write. -/
def Reserve (s : Store) (getFault setFault : Option Error) (token : Int) (node : String) :
    ReserveResult :=
  match kapiGet s getFault (createEtcdTokenPath token "reservedTokens") with
  | .error getErr =>
    match getErr with
    | .clientError Code _ =>
      if Code ≠ ErrorCodeKeyNotFound then { granted := false, err := some getErr, store := s }
      else reserveWrite s setFault token node
    | .other _ => { granted := false, err := some getErr, store := s }
  | .ok resp =>
    if resp.Node.Value ≠ node then { granted := false, err := none, store := s }
    else reserveWrite s setFault token node

/-- Source method `etcdTokenStorage.Release`: the error it returns, and the
store after the call. -/
def Release (s : Store) (deleteFault : Option Error) (token : Int) : Option Error × Store :=
  let r := kapiDelete s deleteFault (createEtcdTokenPath token "reservedTokens")
  (errOf r.1, r.2)

/-- Path of the reservation record of a token in the store. -/
def reservedPath (token : Int) : List String :=
  keyPath (createEtcdTokenPath token "reservedTokens")

/-- Path of the directory `Get` lists. -/
def tokensPath : List String :=
  keyPath (etcdStorageBaseDir ++ "/tokens/")

/-- The node holding the reservation of a token, when there is one. -/
def reservation (s : Store) (token : Int) : Option String :=
  match lookup s (reservedPath token) with
  | some e => if e.dir then none else some e.value
  | none => none

/-- A store in which the directory of the assignments exists and is empty. -/
def emptyNamespace : Store :=
  [{ path := ["influxdbCluster"], dir := true, value := "", ttl := 0 },
   { path := ["influxdbCluster", "tokens"], dir := true, value := "", ttl := 0 }]

/-! ## The merge engine used by `service/coordinator_test.go`

The packages `service/merge` and the result source of `service` are not among
the source files; the test names their operations and the shape of their data.
-/

/-- A value of a result row, a Go `interface{}`: a number, or a text such as
the time of the bucket. -/
inductive Cell where
  | num (q : ℚ)
  | text (s : String)
  deriving DecidableEq

/-- Go `models.Row`, with the fields the test fills and the tags that identify
the series. -/
structure Row where
  Name : String
  Tags : List (String × String)
  Columns : List String
  Values : List (List Cell)
  deriving DecidableEq

/-- The answer of one shard, as the test builds it. -/
structure Result where
  Series : List Row
  deriving DecidableEq

/-- Modelled from the spec: the Result Source, whose code is not among the
source files. It wraps the results of all shards with a cursor made of the
current group (a tag set) and the current step. -/
structure ResultSource where
  results : List Result
  group : List (String × String)
  step : Nat
  deriving DecidableEq

/-- Modelled from the spec: `NewResultSource`, missing from the source files.
The cursor starts at the first group and the first step. -/
def NewResultSource (results : List Result) : ResultSource :=
  { results := results,
    group := match results.flatMap (fun r => r.Series) with
      | row :: _ => row.Tags
      | [] => [],
    step := 0 }

/-- The series of a group in the answer of one shard. -/
def groupSeries (r : Result) (group : List (String × String)) : Option Row :=
  r.Series.find? (fun row => row.Tags = group)

/-- The number one shard reports for a column at a group and step, when it
reports one. -/
def shardValue (r : Result) (group : List (String × String)) (step : Nat) (column : String) :
    Option ℚ :=
  match groupSeries r group with
  | none => none
  | some row =>
    match row.Values.get? step with
    | none => none
    | some cells =>
      match cells.get? (row.Columns.indexOf column) with
      | some (Cell.num q) => some q
      | _ => none

/-- Modelled from the spec: `Next(columnName)` of the Result Source, missing
from the source files: one value per shard that reported the column at the
current group and step, a shard without a value being left out. -/
def ResultSource.Next (src : ResultSource) (column : String) : List ℚ :=
  src.results.filterMap (fun r => shardValue r src.group src.step column)

/-- Number of buckets of the current group: the longest series of the group
among the shards. -/
def ResultSource.buckets (src : ResultSource) : Nat :=
  (src.results.map (fun r =>
    match groupSeries r src.group with
    | some row => row.Values.length
    | none => 0)).foldl max 0

/-- Modelled from the spec: `Step()` of the Result Source, missing from the
source files: the next bucket of the current group, and no move past the last
one. -/
def ResultSource.Step (src : ResultSource) : ResultSource :=
  if src.step + 1 < src.buckets then { src with step := src.step + 1 } else src

/-- Modelled from the spec: `Reset()` of the Result Source, missing from the
source files: back to the first step of the current group. -/
def ResultSource.Reset (src : ResultSource) : ResultSource :=
  { src with step := 0 }

/-- A merged value: a number, or the "no data" marker of a mean over a zero
count. -/
inductive Value where
  | num (q : ℚ)
  | noData
  deriving DecidableEq

/-- Arithmetic operators of a derived expression. -/
inductive Op where
  | add
  | sub
  | mul
  | div
  deriving DecidableEq

/-- Modelled from the spec: the EvaluationNode of the package `service/merge`,
missing from the source files: a leaf reading one partial column, or a
combinator (sum, mean, top-K, arithmetic); a constant is the operand of a
scaling such as `mean(x) * 3`. -/
inductive EvaluationNode where
  | leaf (column : String)
  | const (q : ℚ)
  | sum (child : EvaluationNode)
  | mean (sum count : EvaluationNode)
  | topK (k : Nat) (child : EvaluationNode)
  | arith (op : Op) (left right : EvaluationNode)
  deriving DecidableEq

/-- The error kinds of the decomposer and of the evaluator. -/
inductive MergeError where
  | UnsupportedExpression (name : String)
  | ArityMismatch
  deriving DecidableEq

/-- The numbers among merged values. -/
def numbers : List Value → List ℚ
  | [] => []
  | Value.num q :: vs => q :: numbers vs
  | Value.noData :: vs => numbers vs

/-- Division of the mean combinator: a zero count gives the "no data"
marker. -/
def divide : Value → Value → Value
  | Value.num a, Value.num b => if b = 0 then Value.noData else Value.num (a / b)
  | _, _ => Value.noData

/-- An arithmetic operator on two merged values. -/
def applyOp (op : Op) : Value → Value → Value
  | Value.num a, Value.num b =>
    match op with
    | Op.add => Value.num (a + b)
    | Op.sub => Value.num (a - b)
    | Op.mul => Value.num (a * b)
    | Op.div => divide (Value.num a) (Value.num b)
  | _, _ => Value.noData

/-- Modelled from the spec: the Merge Tree Evaluator (`Root.Next(source)` in
the test), missing from the source files. A leaf returns the values of its
column; a sum adds them into one value; a mean divides the scalar of its sum
child by the scalar of its count child; a top-K sorts descending and keeps
`k`; an arithmetic node applies its operator elementwise and wants equal
arities. -/
def Evaluate : EvaluationNode → ResultSource → Except MergeError (List Value)
  | .leaf column, src => .ok ((src.Next column).map Value.num)
  | .const q, _ => .ok [Value.num q]
  | .sum child, src =>
    match Evaluate child src with
    | .ok vs => .ok [Value.num (numbers vs).sum]
    | .error e => .error e
  | .mean sum count, src =>
    match Evaluate sum src, Evaluate count src with
    | .ok [s], .ok [c] => .ok [divide s c]
    | .error e, _ => .error e
    | _, .error e => .error e
    | _, _ => .error MergeError.ArityMismatch
  | .topK k child, src =>
    match Evaluate child src with
    | .ok vs => .ok ((((numbers vs).insertionSort (fun a b => b ≤ a)).take k).map Value.num)
    | .error e => .error e
  | .arith op left right, src =>
    match Evaluate left src, Evaluate right src with
    | .ok ls, .ok rs =>
      if ls.length = rs.length then .ok (List.zipWith (applyOp op) ls rs)
      else .error MergeError.ArityMismatch
    | .error e, _ => .error e
    | _, .error e => .error e

/-- An output field of a SELECT statement, as the parser hands it over: a
field reference, a number, a call of a function on a field (with the `k` of
`top`), or an arithmetic composition. -/
inductive Expr where
  | ref (field : String)
  | number (q : ℚ)
  | call (fn : String) (field : String) (k : Option Nat)
  | binary (op : Op) (left right : Expr)
  deriving DecidableEq

/-- Name of the partial column of a function over a field, as the columns of
the test spell it: `sum_value_`, `count_value_`. -/
def partialColumn (fn field : String) : String :=
  fn ++ "_" ++ field ++ "_"

/-- Name of the top-K partial column, as the test spells it:
`top_value__1_`. -/
def topColumn (field : String) (k : Nat) : String :=
  "top_" ++ field ++ "__" ++ String.mk (natDigits k) ++ "_"

/-- Modelled from the spec: the decomposition rules of the Query Decomposer,
missing from the source files: the evaluation tree of one output field and the
partial columns it reads. -/
def decompose : Expr → Except MergeError (EvaluationNode × List String)
  | .ref field => .ok (.leaf field, [field])
  | .number q => .ok (.const q, [])
  | .call fn field k =>
    if fn = "sum" then .ok (.sum (.leaf (partialColumn "sum" field)), [partialColumn "sum" field])
    else if fn = "count" then
      .ok (.sum (.leaf (partialColumn "count" field)), [partialColumn "count" field])
    else if fn = "mean" then
      .ok (.mean (.sum (.leaf (partialColumn "sum" field)))
            (.sum (.leaf (partialColumn "count" field))),
           [partialColumn "sum" field, partialColumn "count" field])
    else if fn = "top" then
      match k with
      | some n => .ok (.topK n (.leaf (topColumn field n)), [topColumn field n])
      | none => .error (MergeError.UnsupportedExpression fn)
    else .error (MergeError.UnsupportedExpression fn)
  | .binary op left right =>
    match decompose left, decompose right with
    | .ok (l, lc), .ok (r, rc) => .ok (.arith op l r, lc ++ rc)
    | .error e, _ => .error e
    | _, .error e => .error e

/-- One output field of a query tree, as the test reads it:
`tree.Fields[i].Root`. -/
structure QueryField where
  Root : EvaluationNode
  deriving DecidableEq

/-- The query tree of the test: one evaluation tree per output field. -/
structure QueryTree where
  Fields : List QueryField
  deriving DecidableEq

/-- Modelled from the spec: `merge.NewQueryTree`, missing from the source
files: the evaluation trees of the output fields, in order, with the set of
partial columns to ask of every shard; one unsupported function fails the
whole decomposition. -/
def NewQueryTree : List Expr → Except MergeError (QueryTree × List String)
  | [] => .ok ({ Fields := [] }, [])
  | f :: fs =>
    match decompose f, NewQueryTree fs with
    | .ok (root, cols), .ok (tree, rest) =>
      .ok ({ Fields := { Root := root } :: tree.Fields },
           cols ++ rest.filter (fun c => c ∉ cols))
    | .error e, _ => .error e
    | _, .error e => .error e

/-- The call `tree.Fields[i].Root.Next(source)` of the test, on the tree that
`NewQueryTree` builds for the fields. -/
def evaluateField (fields : List Expr) (i : Nat) (src : ResultSource) :
    Except MergeError (List Value) :=
  match NewQueryTree fields with
  | .error e => .error e
  | .ok (tree, _) =>
    match tree.Fields.get? i with
    | some f => Evaluate f.Root src
    | none => .error MergeError.ArityMismatch

/-- Columns of the two results of `Test_mergeResults`. -/
def testColumns : List String :=
  ["time", "sum_value_", "top_value__1_", "mean_value_", "count_value_"]

/-- Result `a` of `Test_mergeResults`. -/
def resultA : Result :=
  { Series := [{ Name := "", Tags := [], Columns := testColumns,
                 Values := [[.text "1970-01-01T00:00:00Z", .num 5, .num 5, .num 5, .num 1],
                            [.text "1970-01-02T00:00:00Z", .num 8, .num 8, .num 8, .num 1]] }] }

/-- Result `b` of `Test_mergeResults`. -/
def resultB : Result :=
  { Series := [{ Name := "", Tags := [], Columns := testColumns,
                 Values := [[.text "1970-01-01T00:00:00Z", .num 3, .num 3, .num 3, .num 1],
                            [.text "1970-01-02T00:00:00Z", .num 12, .num 12, .num 12, .num 1]] }] }

/-- The source of `Test_mergeResults`. -/
def testSource : ResultSource :=
  NewResultSource [resultA, resultB]

/-- The output fields of the statement of `Test_mergeResults`:
`mean("value"), top("value", 1), sum("value"), mean("value") * 3`. -/
def testFields : List Expr :=
  [.call "mean" "value" none, .call "top" "value" (some 1), .call "sum" "value" none,
   .binary .mul (.call "mean" "value" none) (.number 3)]

/-! ## Facts about the store model -/

theorem lookup_path {s : Store} {p : List String} {e : Entry} (h : lookup s p = some e) :
    e.path = p := by
  have := List.find?_some h
  simpa using this

theorem lookup_append_of_some {s : Store} {p : List String} {e : Entry} (x : Store)
    (h : lookup s p = some e) : lookup (s ++ x) p = some e := by
  unfold lookup at *
  rw [List.find?_append, h]
  rfl

theorem lookup_append_of_none {s : Store} {p : List String} (x : Entry)
    (h : lookup s p = none) :
    lookup (s ++ [x]) p = if x.path = p then some x else none := by
  unfold lookup at *
  rw [List.find?_append, h]
  simp [List.find?]
  split <;> simp_all

theorem lookup_ensureDirs {ds : List (List String)} {s : Store} {p : List String} {e : Entry}
    (h : lookup s p = some e) : lookup (ensureDirs s ds) p = some e := by
  induction ds generalizing s with
  | nil => simpa [ensureDirs] using h
  | cons d ds ih =>
    unfold ensureDirs
    cases hd : lookup s d with
    | some x => simpa using ih h
    | none => simpa using ih (lookup_append_of_some _ h)

theorem lookup_filter_ne (s : Store) (p : List String) :
    lookup (s.filter (fun x => x.path ≠ p)) p = none := by
  unfold lookup
  rw [List.find?_eq_none]
  intro x hx
  have := (List.mem_filter.mp hx).2
  simpa using this

theorem lookup_filter_of_ne (s : Store) {p a : List String} (h : a ≠ p) :
    lookup (s.filter (fun x => x.path ≠ p)) a = lookup s a := by
  have hf : (fun x : Entry =>
      decide (decide (x.path ≠ p) = true ∧ decide (x.path = a) = true)) =
      (fun x : Entry => decide (x.path = a)) := by
    funext x
    by_cases hxa : x.path = a
    · have hxp : x.path ≠ p := fun hh => h (hxa ▸ hh)
      simp [hxa, hxp, h]
    · simp [hxa]
  unfold lookup
  rw [List.find?_filter, hf]

/-- A directory above a path is not that path. -/
theorem ne_of_mem_ancestors {p a : List String} (h : a ∈ ancestors p) : a ≠ p := by
  unfold ancestors at h
  rw [List.mem_filterMap] at h
  obtain ⟨i, hi, hia⟩ := h
  have hlt : i < p.length := List.mem_range.mp hi
  by_cases h0 : i = 0
  · simp [h0] at hia
  · simp only [h0, if_false, Option.some.injEq] at hia
    intro hap
    have hlen : a.length = i := by
      rw [← hia, List.length_take]
      omega
    rw [hap] at hlen
    omega

theorem lookup_putFile (s : Store) (p : List String) (value : String) (ttl : Nat) :
    lookup (putFile s p value ttl) p =
      some { path := p, dir := false, value := value, ttl := ttl } := by
  unfold putFile
  apply lookup_ensureDirs
  simp [lookup]

/-- No file stands at the listed paths exactly when each one is missing or a
directory. -/
theorem fileAbove_false {s : Store} {ds : List (List String)} :
    fileAbove s ds = false ↔ ∀ d ∈ ds, ∀ e, lookup s d = some e → e.dir = true := by
  induction ds with
  | nil => simp [fileAbove]
  | cons d ds ih =>
    unfold fileAbove
    cases hd : lookup s d with
    | none => simp [ih, hd]
    | some e =>
      by_cases he : e.dir = true
      · simp [ih, hd, he]
      · simp [hd, he]

/-- The walk of a read comes through exactly when every listed path is a
directory. -/
theorem walk_none {s : Store} {ds : List (List String)} :
    walk s ds = none ↔ ∀ d ∈ ds, ∃ e, lookup s d = some e ∧ e.dir = true := by
  induction ds with
  | nil => simp [walk]
  | cons d ds ih =>
    unfold walk
    cases hd : lookup s d with
    | none => simp [hd]
    | some e =>
      by_cases he : e.dir = true
      · simp [ih, hd, he]
      · simp [hd, he]

/-- The three answers of a walk. -/
theorem walk_cases (s : Store) (ds : List (List String)) :
    walk s ds = none ∨ walk s ds = some keyNotFound ∨
      (walk s ds = some notADirectory ∧ fileAbove s ds = true) := by
  induction ds with
  | nil => simp [walk]
  | cons d ds ih =>
    unfold walk fileAbove
    cases hd : lookup s d with
    | none => simp
    | some e =>
      by_cases he : e.dir = true
      · simpa [he] using ih
      · simp [he]

theorem walk_of_no_file {s : Store} {ds : List (List String)} (h : fileAbove s ds = false) :
    walk s ds = none ∨ walk s ds = some keyNotFound := by
  rcases walk_cases s ds with h1 | h1 | ⟨_, h2⟩
  · exact Or.inl h1
  · exact Or.inr h1
  · rw [h] at h2
    cases h2

theorem fileAbove_of_walk_none {s : Store} {ds : List (List String)} (h : walk s ds = none) :
    fileAbove s ds = false := by
  rw [fileAbove_false]
  intro d hd e he
  obtain ⟨e2, he2, hdir⟩ := walk_none.mp h d hd
  rw [he] at he2
  cases he2
  exact hdir

/-- After `ensureDirs` every listed path that was missing or a directory is a
directory. -/
theorem ensureDirs_dirs {ds : List (List String)} {s : Store}
    (h : ∀ d ∈ ds, ∀ e, lookup s d = some e → e.dir = true) :
    ∀ d ∈ ds, ∃ e, lookup (ensureDirs s ds) d = some e ∧ e.dir = true := by
  induction ds generalizing s with
  | nil => simp
  | cons d ds ih =>
    intro a ha
    unfold ensureDirs
    cases hd : lookup s d with
    | some x =>
      simp only
      rcases List.mem_cons.mp ha with rfl | hmem
      · exact ⟨x, lookup_ensureDirs hd, h a (List.mem_cons_self _ _) x hd⟩
      · exact ih (fun d2 hd2 => h d2 (List.mem_cons_of_mem _ hd2)) a hmem
    | none =>
      simp only
      have hnew : ∀ d2, ∀ e,
          lookup (s ++ [{ path := d, dir := true, value := "", ttl := 0 }]) d2 = some e →
          (∀ e2, lookup s d2 = some e2 → e2.dir = true) → e.dir = true := by
        intro d2 e he hold
        cases h2 : lookup s d2 with
        | some e2 =>
          rw [lookup_append_of_some _ h2] at he
          cases he
          exact hold _ h2
        | none =>
          rw [lookup_append_of_none _ h2] at he
          split at he
          · cases he
            rfl
          · cases he
      rcases List.mem_cons.mp ha with rfl | hmem
      · refine ⟨{ path := a, dir := true, value := "", ttl := 0 }, ?_, rfl⟩
        apply lookup_ensureDirs
        rw [lookup_append_of_none _ hd]
        simp
      · exact ih (fun d2 hd2 e he =>
          hnew d2 e he (h d2 (List.mem_cons_of_mem _ hd2))) a hmem

/-- After a write the directories above the key are all there. -/
theorem walk_putFile {s : Store} {p : List String} (value : String) (ttl : Nat)
    (h : fileAbove s (ancestors p) = false) :
    walk (putFile s p value ttl) (ancestors p) = none := by
  rw [walk_none]
  unfold putFile
  apply ensureDirs_dirs
  intro d hd e he
  have hne := ne_of_mem_ancestors hd
  have hl : lookup ({ path := p, dir := false, value := value, ttl := ttl } ::
      s.filter (fun x => x.path ≠ p)) d = lookup s d := by
    have : lookup ({ path := p, dir := false, value := value, ttl := ttl } ::
        s.filter (fun x => x.path ≠ p)) d = lookup (s.filter (fun x => x.path ≠ p)) d := by
      unfold lookup
      simp [List.find?, Ne.symm hne]
    rw [this, lookup_filter_of_ne s hne]
  rw [hl] at he
  exact fileAbove_false.mp h d hd e he

/-- Removing a key leaves the walk above it as it was. -/
theorem walk_filter (s : Store) (p : List String) (ds : List (List String))
    (h : ∀ d ∈ ds, d ≠ p) :
    walk (s.filter (fun x => x.path ≠ p)) ds = walk s ds := by
  induction ds with
  | nil => rfl
  | cons d ds ih =>
    unfold walk
    rw [lookup_filter_of_ne s (h d (List.mem_cons_self _ _)),
      ih (fun d2 hd2 => h d2 (List.mem_cons_of_mem _ hd2))]

/-- What a write the store accepts tells about the store, and the store it
leaves. -/
theorem kapiSet_inv {s : Store} {f : Option Error} {key value : String}
    {opts : Option SetOptions} (h : errOf (kapiSet s f key value opts).1 = none) :
    f = none ∧ fileAbove s (ancestors (keyPath key)) = false ∧
      (∀ e, lookup s (keyPath key) = some e → e.dir = false) ∧
      (kapiSet s f key value opts).2 = putFile s (keyPath key) value (requestTTL opts) := by
  unfold kapiSet at *
  cases f with
  | some e => simp [errOf] at h
  | none =>
    simp only at h ⊢
    by_cases hfa : fileAbove s (ancestors (keyPath key)) = true
    · simp [hfa, errOf] at h
    · simp only [hfa] at h ⊢
      cases hl : lookup s (keyPath key) with
      | none => simp
      | some e =>
        by_cases hd : e.dir = true
        · simp [hl, hd, errOf] at h
        · simp [hd]

/-- A write the store accepts leaves the store with the file written. -/
theorem kapiSet_store {s : Store} {f : Option Error} {key value : String}
    {opts : Option SetOptions} (h : errOf (kapiSet s f key value opts).1 = none) :
    (kapiSet s f key value opts).2 = putFile s (keyPath key) value (requestTTL opts) :=
  (kapiSet_inv h).2.2.2

/-- The store accepts a fault-free write at a key that is not a directory and
has no file above it. -/
theorem kapiSet_ok (s : Store) (key : String) (value : String) (opts : Option SetOptions)
    (hfa : fileAbove s (ancestors (keyPath key)) = false)
    (h : ∀ e, lookup s (keyPath key) = some e → e.dir = false) :
    errOf (kapiSet s none key value opts).1 = none := by
  unfold kapiSet
  cases hl : lookup s (keyPath key) with
  | none => simp [hfa, hl, errOf]
  | some e => simp [hfa, hl, h e hl, errOf]

/-- The answer of a fault-free read of a key the store holds below
directories. -/
theorem kapiGet_of_lookup {s : Store} (key : String) {e : Entry}
    (hw : walk s (ancestors (keyPath key)) = none)
    (h : lookup s (keyPath key) = some e) :
    ∃ resp, kapiGet s none key = .ok resp ∧ resp.Node.Value = e.value ∧
      resp.Node.Nodes = if e.dir then (children s e.path).map Entry.info else [] := by
  unfold kapiGet
  simp [h, hw]

/-- The answer of a fault-free read of a key the store does not hold, no file
standing above it. -/
theorem kapiGet_of_lookup_none {s : Store} (key : String)
    (hfa : fileAbove s (ancestors (keyPath key)) = false)
    (h : lookup s (keyPath key) = none) : kapiGet s none key = .error keyNotFound := by
  unfold kapiGet
  rcases walk_of_no_file hfa with hw | hw
  · simp [h, hw]
  · simp [hw]

/-- A fault-free read fails with key-not-found or with not-a-directory, the
latter when a file stands above the key. -/
theorem kapiGet_error {s : Store} {key : String} {err : Error}
    (h : kapiGet s none key = .error err) :
    err = keyNotFound ∨
      (err = notADirectory ∧ fileAbove s (ancestors (keyPath key)) = true) := by
  unfold kapiGet at h
  rcases walk_cases s (ancestors (keyPath key)) with hw | hw | ⟨hw, hfa⟩
  · simp only [hw] at h
    cases hl : lookup s (keyPath key) with
    | none =>
      simp only [hl] at h
      cases h
      exact Or.inl rfl
    | some e => simp [hl] at h
  · simp only [hw] at h
    cases h
    exact Or.inl rfl
  · simp only [hw] at h
    cases h
    exact Or.inr ⟨rfl, hfa⟩

/-! ## Facts about `Reserve` and `Release` -/

/-- What the writing tail of `Reserve` returns when it grants. -/
theorem reserveWrite_granted {s : Store} {w : Option Error} {t : Int} {n : String}
    (h : (reserveWrite s w t n).granted = true) :
    (reserveWrite s w t n).err = none ∧
      (reserveWrite s w t n).store = putFile s (reservedPath t) n 0 ∧
      fileAbove s (ancestors (reservedPath t)) = false := by
  unfold reserveWrite at *
  simp only [beq_iff_eq] at h
  obtain ⟨_, hfa, _, hs⟩ := kapiSet_inv h
  exact ⟨h, by simpa [requestTTL, reservedPath] using hs, hfa⟩

/-- A granted `Reserve` returned no error and wrote the file of the
reservation, with no time to live, below directories. -/
theorem Reserve_granted {s : Store} {g w : Option Error} {t : Int} {n : String}
    (h : (Reserve s g w t n).granted = true) :
    (Reserve s g w t n).err = none ∧
      (Reserve s g w t n).store = putFile s (reservedPath t) n 0 ∧
      fileAbove s (ancestors (reservedPath t)) = false := by
  unfold Reserve at *
  split at h
  · split at h
    · split at h
      · simp at h
      · rename_i hc
        simp only [hc, if_false]
        exact reserveWrite_granted h
    · simp at h
  · split at h
    · simp at h
    · rename_i hv
      simp only [hv, if_false]
      exact reserveWrite_granted h

/-- With the token reserved by another node and the read answered, `Reserve`
refuses and leaves the store alone. -/
theorem Reserve_refused {s : Store} {t : Int} {n m : String} {e : Entry} (w : Option Error)
    (hw : walk s (ancestors (reservedPath t)) = none)
    (hl : lookup s (reservedPath t) = some e) (hv : e.value = m) (hne : m ≠ n) :
    Reserve s none w t n = { granted := false, err := none, store := s } := by
  obtain ⟨resp, hr, hval, _⟩ :=
    kapiGet_of_lookup (createEtcdTokenPath t "reservedTokens") hw hl
  unfold Reserve
  rw [hr]
  simp [hval, hv, hne]

/-- After a read answered with key-not-found `Reserve` goes on to the
write. -/
theorem Reserve_of_keyNotFound {s : Store} {t : Int} (n : String) (w : Option Error)
    (hr : kapiGet s none (createEtcdTokenPath t "reservedTokens") = .error keyNotFound) :
    Reserve s none w t n = reserveWrite s w t n := by
  unfold Reserve
  rw [hr]
  simp [keyNotFound]

/-- With the reservation key holding the value of the caller and the read
answered, `Reserve` goes on to the write. -/
theorem Reserve_of_same {s : Store} {t : Int} {n : String} {e : Entry} (w : Option Error)
    (hw : walk s (ancestors (reservedPath t)) = none)
    (hl : lookup s (reservedPath t) = some e) (hv : e.value = n) :
    Reserve s none w t n = reserveWrite s w t n := by
  obtain ⟨resp, hr, hval, _⟩ :=
    kapiGet_of_lookup (createEtcdTokenPath t "reservedTokens") hw hl
  unfold Reserve
  rw [hr]
  simp [hval, hv]

/-- A read that fails with anything but key-not-found ends `Reserve`. -/
theorem Reserve_of_read_error {s : Store} {g : Option Error} {t : Int} {e : Error}
    (n : String) (w : Option Error)
    (hr : kapiGet s g (createEtcdTokenPath t "reservedTokens") = .error e)
    (hk : e.isKeyNotFound = false) :
    Reserve s g w t n = { granted := false, err := some e, store := s } := by
  unfold Reserve
  rw [hr]
  cases e with
  | clientError c m =>
    have : c ≠ ErrorCodeKeyNotFound := by simpa [Error.isKeyNotFound] using hk
    simp [this]
  | other x => rfl

/-- The writing tail of `Reserve` on a store that accepts the write. -/
theorem reserveWrite_ok {s : Store} {w : Option Error} {t : Int} {n : String}
    (h : errOf (kapiSet s w (createEtcdTokenPath t "reservedTokens") n none).1 = none) :
    reserveWrite s w t n =
      { granted := true, err := none, store := putFile s (reservedPath t) n 0 } := by
  have hs := kapiSet_store h
  unfold reserveWrite
  simp only [h, hs]
  rfl

theorem reservation_putFile (s : Store) (t : Int) (n : String) (ttl : Nat) :
    reservation (putFile s (reservedPath t) n ttl) t = some n := by
  unfold reservation
  rw [lookup_putFile]
  rfl

/-- `Reserve` on a store whose reservation key is free or held by the caller,
when the read is answered and the store accepts the write. -/
theorem Reserve_free_or_own {s : Store} {t : Int} {n : String} {w : Option Error}
    (hres : lookup s (reservedPath t) = none ∨
      ∃ e, lookup s (reservedPath t) = some e ∧ e.value = n)
    (hw : errOf (kapiSet s w (createEtcdTokenPath t "reservedTokens") n none).1 = none) :
    Reserve s none w t n =
      { granted := true, err := none, store := putFile s (reservedPath t) n 0 } := by
  obtain ⟨_, hfa, _, _⟩ := kapiSet_inv hw
  rw [← reserveWrite_ok hw]
  rcases walk_of_no_file hfa with hwalk | hwalk
  · rcases hres with h | ⟨e, h, hv⟩
    · exact Reserve_of_keyNotFound n w (kapiGet_of_lookup_none _ hfa h)
    · exact Reserve_of_same w hwalk h hv
  · apply Reserve_of_keyNotFound
    unfold kapiGet
    simp [hwalk]

/-- A release that returned no error found directories above the key and
removed the entry of the reservation. -/
theorem Release_ok {s : Store} {d : Option Error} {t : Int}
    (h : (Release s d t).1 = none) :
    walk s (ancestors (reservedPath t)) = none ∧
      (Release s d t).2 = s.filter (fun x => x.path ≠ reservedPath t) := by
  unfold Release kapiDelete at *
  cases d with
  | some e => simp [errOf] at h
  | none =>
    simp only at h ⊢
    cases hw : walk s (ancestors (keyPath (createEtcdTokenPath t "reservedTokens"))) with
    | some err => simp [hw, errOf] at h
    | none =>
      simp only [hw] at h ⊢
      cases hl : lookup s (keyPath (createEtcdTokenPath t "reservedTokens")) with
      | none => simp [hl, errOf] at h
      | some e =>
        simp only [hl] at h ⊢
        by_cases hd : e.dir = true
        · simp [hd, errOf] at h
        · simp [hd, reservedPath, hw]

/-- The answer of a fault-free read of the directory `Get` lists. -/
theorem Get_of_lookup {s : Store} {e : Entry} (hw : walk s (ancestors tokensPath) = none)
    (h : lookup s tokensPath = some e) :
    Get s none =
      (some (getLoop [] (if e.dir then (children s e.path).map Entry.info else [])), none) := by
  unfold Get kapiGet
  unfold tokensPath at h hw
  simp [h, hw]

/-! ## The claims on the token storage -/

/-- C1: once `Reserve(t, n1)` has returned granted = true, a following
`Reserve(t, n2)` of another node, with nothing in between, returns
granted = false and a nil error when the store answers its read, leaves the
store as it was, and the reservation of `t` still belongs to `n1`; if the read
fails instead with an error other than key-not-found, it returns
granted = false too. -/
theorem Reserve_excludes_other_node (s : Store) (t : Int) (n1 n2 : String)
    (g1 w1 w2 : Option Error) (hne : n1 ≠ n2)
    (hg : (Reserve s g1 w1 t n1).granted = true) :
    Reserve (Reserve s g1 w1 t n1).store none w2 t n2 =
        { granted := false, err := none, store := (Reserve s g1 w1 t n1).store } ∧
      reservation (Reserve s g1 w1 t n1).store t = some n1 ∧
      reservation (Reserve (Reserve s g1 w1 t n1).store none w2 t n2).store t = some n1 ∧
      ∀ e : Error, e.isKeyNotFound = false →
        Reserve (Reserve s g1 w1 t n1).store (some e) w2 t n2 =
          { granted := false, err := some e, store := (Reserve s g1 w1 t n1).store } := by
  obtain ⟨_, hs, hfa⟩ := Reserve_granted hg
  have hl : lookup (Reserve s g1 w1 t n1).store (reservedPath t) =
      some { path := reservedPath t, dir := false, value := n1, ttl := 0 } := by
    rw [hs]
    exact lookup_putFile _ _ _ _
  have hwalk : walk (Reserve s g1 w1 t n1).store (ancestors (reservedPath t)) = none := by
    rw [hs]
    exact walk_putFile n1 0 hfa
  have h2 := Reserve_refused (n := n2) w2 hwalk hl rfl hne
  have hr : reservation (Reserve s g1 w1 t n1).store t = some n1 := by
    rw [hs]
    exact reservation_putFile _ _ _ _
  refine ⟨h2, hr, ?_, ?_⟩
  · rw [h2]
    exact hr
  · intro e he
    exact Reserve_of_read_error n2 w2 rfl he

theorem Reserve_excludes_other_node_witness :
    "a" ≠ "b" ∧ (Reserve [] none none 5 "a").granted = true ∧
      Reserve (Reserve [] none none 5 "a").store none none 5 "b" =
        { granted := false, err := none, store := (Reserve [] none none 5 "a").store } :=
  ⟨by decide, by decide,
    (Reserve_excludes_other_node [] 5 "a" "b" none none none (by decide) (by decide)).1⟩

/-- C7: when the read of the reservation key fails with an error other than
key-not-found, `Reserve(t, n)` returns granted = false with that same error
and the store is left as it was. -/
theorem Reserve_read_fault (s : Store) (t : Int) (n : String) (g w : Option Error) (e : Error)
    (hr : kapiGet s g (createEtcdTokenPath t "reservedTokens") = .error e)
    (hk : e.isKeyNotFound = false) :
    Reserve s g w t n = { granted := false, err := some e, store := s } :=
  Reserve_of_read_error n w hr hk

theorem Reserve_read_fault_witness :
    kapiGet [] (some (Error.other "context deadline exceeded"))
        (createEtcdTokenPath 5 "reservedTokens") =
        .error (Error.other "context deadline exceeded") ∧
      Reserve [] (some (Error.other "context deadline exceeded")) none 5 "a" =
        { granted := false, err := some (Error.other "context deadline exceeded"), store := [] } :=
  ⟨rfl, Reserve_read_fault [] 5 "a" (some (Error.other "context deadline exceeded")) none
    (Error.other "context deadline exceeded") rfl rfl⟩

/-- C8: when the store holds no reservation for `t`, or one whose value is
`n`, and it answers the read, `Reserve(t, n)` writes `n` at the reservation key
of `t` and returns granted = true with a nil error whenever the write
succeeds; the same call made again returns granted = true with a nil error
whenever its write succeeds, as it does when the store serves it. -/
theorem Reserve_grants_free_or_own (s : Store) (t : Int) (n : String) (w : Option Error)
    (hres : lookup s (reservedPath t) = none ∨
      ∃ e, lookup s (reservedPath t) = some e ∧ e.value = n)
    (hw : errOf (kapiSet s w (createEtcdTokenPath t "reservedTokens") n none).1 = none) :
    Reserve s none w t n =
        { granted := true, err := none, store := putFile s (reservedPath t) n 0 } ∧
      reservation (Reserve s none w t n).store t = some n ∧
      (∀ w2 : Option Error,
        errOf (kapiSet (Reserve s none w t n).store w2
          (createEtcdTokenPath t "reservedTokens") n none).1 = none →
        (Reserve (Reserve s none w t n).store none w2 t n).granted = true ∧
          (Reserve (Reserve s none w t n).store none w2 t n).err = none ∧
          reservation (Reserve (Reserve s none w t n).store none w2 t n).store t = some n) ∧
      (Reserve (Reserve s none w t n).store none none t n).granted = true := by
  have h1 := Reserve_free_or_own hres hw
  obtain ⟨_, hfa, _, _⟩ := kapiSet_inv hw
  have hl := lookup_putFile s (reservedPath t) n 0
  have hwalk := walk_putFile (s := s) (p := reservedPath t) n 0 hfa
  have h2 : ∀ w2 : Option Error,
      errOf (kapiSet (putFile s (reservedPath t) n 0) w2
        (createEtcdTokenPath t "reservedTokens") n none).1 = none →
      Reserve (putFile s (reservedPath t) n 0) none w2 t n =
        { granted := true, err := none,
          store := putFile (putFile s (reservedPath t) n 0) (reservedPath t) n 0 } := by
    intro w2 hw2
    exact Reserve_free_or_own (Or.inr ⟨_, hl, rfl⟩) hw2
  rw [h1]
  refine ⟨rfl, reservation_putFile _ _ _ _, ?_, ?_⟩
  · intro w2 hw2
    rw [h2 w2 hw2]
    exact ⟨rfl, rfl, reservation_putFile _ _ _ _⟩
  · have hok := kapiSet_ok (putFile s (reservedPath t) n 0)
      (createEtcdTokenPath t "reservedTokens") n none (fileAbove_of_walk_none hwalk) (by
        intro e he
        have : lookup (putFile s (reservedPath t) n 0) (reservedPath t) = some e := he
        rw [hl] at this
        cases this
        rfl)
    rw [h2 none hok]

theorem Reserve_grants_free_or_own_witness :
    lookup [] (reservedPath 5) = none ∧
      (Reserve [] none none 5 "a").granted = true ∧
      (Reserve (Reserve [] none none 5 "a").store none none 5 "a").granted = true :=
  ⟨by decide,
    by
      have h := (Reserve_grants_free_or_own [] 5 "a" none (Or.inl (by decide)) (by decide)).1
      rw [h],
    (Reserve_grants_free_or_own [] 5 "a" none (Or.inl (by decide)) (by decide)).2.2.2⟩

/-- C9: when `t` is reserved by `n1` and `Release(t)` returns without error, a
following `Reserve(t, n2)` that the store serves returns granted = true with a
nil error, for `n2` equal to `n1` or not, and the reservation of `t` then
belongs to `n2`. -/
theorem Release_then_Reserve (s : Store) (t : Int) (n1 n2 : String) (d : Option Error)
    (_hres : reservation s t = some n1) (hrel : (Release s d t).1 = none) :
    (Reserve (Release s d t).2 none none t n2).granted = true ∧
      (Reserve (Release s d t).2 none none t n2).err = none ∧
      reservation (Reserve (Release s d t).2 none none t n2).store t = some n2 := by
  obtain ⟨hwalk, hs⟩ := Release_ok hrel
  have hl : lookup (Release s d t).2 (reservedPath t) = none := by
    rw [hs]
    exact lookup_filter_ne s _
  have hwalk2 : walk (Release s d t).2 (ancestors (reservedPath t)) = none := by
    rw [hs, walk_filter s _ _ (fun a ha => ne_of_mem_ancestors ha)]
    exact hwalk
  have hok := kapiSet_ok (Release s d t).2
    (createEtcdTokenPath t "reservedTokens") n2 none (fileAbove_of_walk_none hwalk2) (by
      intro e he
      have : lookup (Release s d t).2 (reservedPath t) = some e := he
      rw [hl] at this
      cases this)
  rw [Reserve_free_or_own (Or.inl hl) hok]
  exact ⟨rfl, rfl, reservation_putFile _ _ _ _⟩

theorem Release_then_Reserve_witness :
    reservation (Reserve [] none none 5 "a").store 5 = some "a" ∧
      (Release (Reserve [] none none 5 "a").store none 5).1 = none ∧
      (Reserve (Release (Reserve [] none none 5 "a").store none 5).2 none none 5 "b").granted
        = true :=
  ⟨by decide, by decide,
    (Release_then_Reserve (Reserve [] none none 5 "a").store 5 "a" "b" none
      (by decide) (by decide)).1⟩

/-- C2: on the store whose assignment directory exists and is empty,
`Assign(5, "nodeA")` returns no error and writes the key
`influxdbCluster/reservedTokens/5`; the `Get()` that follows returns the empty
map, in which token 5 has no node. On the empty store the `Get()` that follows
returns the key-not-found error. -/
theorem Assign_then_Get_misses_token :
    (Assign emptyNamespace none 5 "nodeA").1 = none ∧
      lookup (Assign emptyNamespace none 5 "nodeA").2 ["influxdbCluster", "reservedTokens", "5"] =
        some { path := ["influxdbCluster", "reservedTokens", "5"], dir := false,
               value := "nodeA", ttl := 0 } ∧
      lookup (Assign emptyNamespace none 5 "nodeA").2 ["influxdbCluster", "tokens", "5"] = none ∧
      Get (Assign emptyNamespace none 5 "nodeA").2 none = (some [], none) ∧
      TokenMap.get [] 5 = none ∧
      (Assign [] none 5 "nodeA").1 = none ∧
      Get (Assign [] none 5 "nodeA").2 none = (none, some keyNotFound) := by
  decide

/-- C3: on the empty store token 5 has no reservation record and
`Reserve(5, "b")` is granted; after `Assign(5, "a")` the reservation record of
token 5 holds `a` and the same `Reserve(5, "b")` is refused. -/
theorem Assign_writes_reservation_record :
    reservation [] 5 = none ∧
      (Reserve [] none none 5 "b").granted = true ∧
      (Assign [] none 5 "a").1 = none ∧
      reservation (Assign [] none 5 "a").2 5 = some "a" ∧
      Reserve (Assign [] none 5 "a").2 none none 5 "b" =
        { granted := false, err := none, store := (Assign [] none 5 "a").2 } := by
  decide

/-- C4: every granted `Reserve(t, n)` leaves the reservation record written
with no time to live: the write is sent with nil options, not with the one
minute the options built just before it hold. -/
theorem Reserve_writes_without_ttl (s : Store) (t : Int) (n : String) (g w : Option Error)
    (hg : (Reserve s g w t n).granted = true) :
    lookup (Reserve s g w t n).store (reservedPath t) =
        some { path := reservedPath t, dir := false, value := n, ttl := 0 } ∧
      requestTTL none ≠ Minute := by
  obtain ⟨_, hs, _⟩ := Reserve_granted hg
  rw [hs]
  exact ⟨lookup_putFile _ _ _ _, by decide⟩

theorem Reserve_writes_without_ttl_witness :
    (Reserve [] none none 5 "a").granted = true ∧
      lookup (Reserve [] none none 5 "a").store (reservedPath 5) =
        some { path := reservedPath 5, dir := false, value := "a", ttl := 0 } :=
  ⟨by decide, (Reserve_writes_without_ttl [] 5 "a" none none (by decide)).1⟩

/-- C5, as stated, fails on the empty store: the directory of the assignments
does not exist there, and `Get()` returns an error and no map. -/
theorem Get_missing_namespace_counterexample :
    lookup [] tokensPath = none ∧ (Get [] none).2 ≠ none ∧ (Get [] none).1 ≠ some [] := by
  decide

/-- C5, amended: `Get()` on a store whose assignment directory exists below
the directory `influxdbCluster` and has no entry below it returns the empty map
and a nil error; on a store in which the assignment directory does not exist
it returns a nil map and the error of the read of the store: not-a-directory
when `influxdbCluster` is a file, key-not-found otherwise. -/
theorem Get_empty_or_missing_namespace (s : Store) :
    (∀ e, walk s (ancestors tokensPath) = none → lookup s tokensPath = some e →
        children s tokensPath = [] → Get s none = (some [], none)) ∧
      (lookup s tokensPath = none →
        Get s none =
          (none, some (if fileAbove s (ancestors tokensPath) then notADirectory
                       else keyNotFound))) := by
  constructor
  · intro e hw he hc
    rw [Get_of_lookup hw he, lookup_path he, hc]
    cases e.dir <;> rfl
  · intro h
    have ha : ancestors (keyPath (etcdStorageBaseDir ++ "/tokens/")) = [["influxdbCluster"]] := by
      decide
    unfold tokensPath at h ⊢
    unfold Get kapiGet
    rw [ha]
    unfold walk fileAbove
    cases hl : lookup s ["influxdbCluster"] with
    | none => simp [fileAbove]
    | some e =>
      by_cases hd : e.dir = true
      · simp [hd, walk, fileAbove, h]
      · simp [hd]

theorem Get_empty_or_missing_namespace_witness :
    Get emptyNamespace none = (some [], none) ∧ Get [] none = (none, some keyNotFound) ∧
      Get [{ path := ["influxdbCluster"], dir := false, value := "x", ttl := 0 }] none =
        (none, some notADirectory) :=
  ⟨(Get_empty_or_missing_namespace emptyNamespace).1
      { path := ["influxdbCluster", "tokens"], dir := true, value := "", ttl := 0 }
      (by decide) (by decide) (by decide),
    (Get_empty_or_missing_namespace []).2 (by decide),
    (Get_empty_or_missing_namespace
      [{ path := ["influxdbCluster"], dir := false, value := "x", ttl := 0 }]).2 (by decide)⟩

/-- C6, as stated, fails on the empty store: token 5 has no reservation and
`Release(5)` returns the key-not-found error of the delete. -/
theorem Release_missing_counterexample :
    reservation [] 5 = none ∧ (Release [] none 5).1 ≠ none ∧
      (Release [] none 5).1 = some (Error.clientError ErrorCodeKeyNotFound "Key not found") := by
  decide

/-- C6, amended: `Release(t)` on a store that holds nothing at the reservation
key of `t` returns the error of the delete of the store as it is, and leaves
the store as it was: the error is key-not-found, or not-a-directory, which
takes a file standing above the key; with no file above the key it is
key-not-found. -/
theorem Release_missing_returns_store_error (s : Store) (t : Int)
    (h : lookup s (reservedPath t) = none) :
    (Release s none t).2 = s ∧
      ((Release s none t).1 = some keyNotFound ∨
        ((Release s none t).1 = some notADirectory ∧
          fileAbove s (ancestors (reservedPath t)) = true)) ∧
      (fileAbove s (ancestors (reservedPath t)) = false →
        (Release s none t).1 = some keyNotFound) ∧
      keyNotFound.isKeyNotFound = true ∧ notADirectory.isKeyNotFound = false := by
  unfold reservedPath at h ⊢
  have hrel : Release s none t =
      (some (match walk s (ancestors (keyPath (createEtcdTokenPath t "reservedTokens"))) with
        | some err => err
        | none => keyNotFound), s) := by
    unfold Release kapiDelete
    cases hw : walk s (ancestors (keyPath (createEtcdTokenPath t "reservedTokens"))) with
    | some err => simp [hw, errOf]
    | none => simp [hw, h, errOf]
  rw [hrel]
  refine ⟨rfl, ?_, ?_, by decide, by decide⟩
  · rcases walk_cases s (ancestors (keyPath (createEtcdTokenPath t "reservedTokens")))
      with hw | hw | ⟨hw, hfa⟩
    · exact Or.inl (by simp [hw])
    · exact Or.inl (by simp [hw])
    · exact Or.inr ⟨by simp [hw], hfa⟩
  · intro hfa
    rcases walk_of_no_file hfa with hw | hw
    · simp [hw]
    · simp [hw]

theorem Release_missing_returns_store_error_witness :
    lookup [] (reservedPath 5) = none ∧ (Release [] none 5).2 = [] ∧
      (Release [] none 5).1 = some keyNotFound :=
  ⟨by decide, (Release_missing_returns_store_error [] 5 (by decide)).1,
    (Release_missing_returns_store_error [] 5 (by decide)).2.2.1 (by decide)⟩

/-! ## The claim on the merge of a mean -/

theorem numbers_map_num (l : List ℚ) : numbers (l.map Value.num) = l := by
  induction l with
  | nil => rfl
  | cons q qs ih => simp [numbers, ih]

/-- The tree `NewQueryTree` builds for the single field `mean(x)`. -/
theorem NewQueryTree_mean (x : String) :
    NewQueryTree [Expr.call "mean" x none] =
      .ok ({ Fields := [{ Root := .mean (.sum (.leaf (partialColumn "sum" x)))
                                    (.sum (.leaf (partialColumn "count" x))) }] },
           [partialColumn "sum" x, partialColumn "count" x]) := by
  simp [NewQueryTree, decompose]

/-- The value of the mean tree at any position of a source. -/
theorem Evaluate_mean (x : String) (src : ResultSource) :
    Evaluate (.mean (.sum (.leaf (partialColumn "sum" x)))
        (.sum (.leaf (partialColumn "count" x)))) src =
      .ok [divide (Value.num (src.Next (partialColumn "sum" x)).sum)
                  (Value.num (src.Next (partialColumn "count" x)).sum)] := by
  simp [Evaluate, numbers_map_num]

/-- C10: for every results of the shards and every position of the source,
the tree of `NewQueryTree` for the field `mean(x)` evaluates to one value, the
sum over the shards of the sum partial divided by the sum over the shards of
the count partial (the "no data" marker when that count is zero); on the two
shards of the test, field 0 of the statement yields `[4]` and, after `Step()`,
`[10]`. -/
theorem mean_field_merges (x : String) (src : ResultSource) :
    evaluateField [Expr.call "mean" x none] 0 src =
        .ok [divide (Value.num (src.Next (partialColumn "sum" x)).sum)
                    (Value.num (src.Next (partialColumn "count" x)).sum)] ∧
      ((src.Next (partialColumn "count" x)).sum ≠ 0 →
        evaluateField [Expr.call "mean" x none] 0 src =
          .ok [Value.num ((src.Next (partialColumn "sum" x)).sum /
                          (src.Next (partialColumn "count" x)).sum)]) ∧
      testSource.Next "sum_value_" = [5, 3] ∧ testSource.Next "count_value_" = [1, 1] ∧
      testSource.Step.Next "sum_value_" = [8, 12] ∧
      testSource.Step.Next "count_value_" = [1, 1] ∧
      evaluateField testFields 0 testSource = .ok [Value.num 4] ∧
      evaluateField testFields 0 testSource.Step = .ok [Value.num 10] := by
  have hgen : ∀ s : ResultSource, evaluateField [Expr.call "mean" x none] 0 s =
      .ok [divide (Value.num (s.Next (partialColumn "sum" x)).sum)
                  (Value.num (s.Next (partialColumn "count" x)).sum)] := by
    intro s
    unfold evaluateField
    rw [NewQueryTree_mean]
    exact Evaluate_mean x s
  have htest : ∀ s : ResultSource, evaluateField testFields 0 s =
      .ok [divide (Value.num (s.Next "sum_value_").sum)
                  (Value.num (s.Next "count_value_").sum)] := by
    intro s
    have h := Evaluate_mean "value" s
    have hs : partialColumn "sum" "value" = "sum_value_" := by decide
    have hc : partialColumn "count" "value" = "count_value_" := by decide
    rw [hs, hc] at h
    rw [← h]
    simp [evaluateField, NewQueryTree, decompose, testFields, hs, hc]
  have h1 : testSource.Next "sum_value_" = [5, 3] := by decide
  have h2 : testSource.Next "count_value_" = [1, 1] := by decide
  have h3 : testSource.Step.Next "sum_value_" = [8, 12] := by decide
  have h4 : testSource.Step.Next "count_value_" = [1, 1] := by decide
  refine ⟨hgen src, ?_, h1, h2, h3, h4, ?_, ?_⟩
  · intro hne
    rw [hgen src]
    simp [divide, hne]
  · rw [htest, h1, h2]
    simp [divide]
    norm_num
  · rw [htest, h3, h4]
    simp [divide]
    norm_num

theorem mean_field_merges_witness :
    (testSource.Next (partialColumn "count" "value")).sum ≠ 0 ∧
      evaluateField [Expr.call "mean" "value" none] 0 testSource =
        .ok [Value.num ((testSource.Next (partialColumn "sum" "value")).sum /
                        (testSource.Next (partialColumn "count" "value")).sum)] := by
  have hc : testSource.Next (partialColumn "count" "value") = [1, 1] := by decide
  have hne : (testSource.Next (partialColumn "count" "value")).sum ≠ 0 := by
    rw [hc]
    norm_num
  exact ⟨hne, (mean_field_merges "value" testSource).2.1 hne⟩

end InfluxHA
